import Mathlib

/-!
Verification development for `src/beeget.py`.

The program is orchestration glue: it locates and downloads the latest Bee
binary for the current platform, starts a Bee node in a background thread,
waits for the node's local port to accept connections, retrieves a file by
swarm hash from the node's HTTP gateway, and then signals the node to stop.

This file shallowly embeds the program's control flow and data handling in
Lean.  External effects (HTTP responses, the filesystem check, the child
process spawn, socket connections) are supplied by an environment record;
the embedding computes the program's result and an observable trace
(printed lines, stop-flag operations, probe attempt/sleep counts, the
thread join and the force-terminate branch).  Filesystem writes of the
binary installer (directory creation, chunked file write, chmod; lines
68-102 of the source) are not modelled beyond the network fetch of the
asset: no claim under consideration concerns them.
-/

namespace Beeget

/-- The error kinds of the program.  Every failure in `beeget.py` is a
`RuntimeError` carrying a formatted message; the constructors record the
distinct raise sites and their message parameters. -/
inductive BeeError where
  | releaseFetchError (e : String)
  | unsupportedPlatform (osName arch : String)
  | downloadError (e : String)
  | filesystemError (e : String)
  | binaryMissing
  | nodeStartTimeout (maxRetries : Nat)
  | retrievalError (e : String)
deriving DecidableEq

/-- The `RuntimeError` message text attached at each raise site
(lines 41, 66, 94, 96, 118, 142, 172 of `beeget.py`). -/
def errMessage : BeeError → String
  | .releaseFetchError e => "Failed to download latest Bee release: " ++ e
  | .unsupportedPlatform osName arch =>
      "Bee binary not found for architecture: " ++ osName ++ "-" ++ arch
  | .downloadError e => "Failed to download Bee binary: " ++ e
  | .filesystemError e => "Failed to create directory structure: " ++ e
  | .binaryMissing => "Bee binary not found. Please ensure it's downloaded or installed."
  | .nodeStartTimeout maxRetries =>
      "Bee node failed to start after " ++ toString maxRetries ++ " retries."
  | .retrievalError e => "Failed to download file using Bee API: " ++ e

/-- A release asset from the GitHub metadata: `{name, browser_download_url}`. -/
structure Asset where
  name : String
  browser_download_url : String
deriving DecidableEq

/-- The fixed platform-to-filename dictionary, lines 51-57. -/
def filename_map : List ((String × String) × String) :=
  [ (("linux", "x86_64"), "bee-linux-amd64"),
    (("linux", "arm64"), "bee-linux-arm64"),
    (("darwin", "x86_64"), "bee-darwin-amd64"),
    (("darwin", "arm64"), "bee-darwin-arm64"),
    (("windows", "x86_64"), "bee-windows-amd64.exe") ]

/-- Python `dict.get`: first binding of the key, `None` when absent. -/
def dict_get : List ((String × String) × String) → (String × String) → Option String
  | [], _ => none
  | (k2, v) :: rest, k => if k2 = k then some v else dict_get rest k

/-- The asset scan loop, lines 59-63: `download_url` is the
`browser_download_url` of the first asset whose `name` equals the mapped
filename (`asset['name'] == filename_map.get(...)`; when the map lookup is
`None` the comparison is false for every asset), else `None`. -/
def find_download_url : List Asset → Option String → Option String
  | [], _ => none
  | a :: rest, target =>
      if some a.name = target then some a.browser_download_url
      else find_download_url rest target

/-- Lines 59-66: the Release Locator's result.  Python's
`if not download_url:` treats both `None` and the empty string as absent,
raising the unsupported-platform `RuntimeError`. -/
def locate_release_asset (assets : List Asset) (osName arch : String) :
    Except BeeError String :=
  match find_download_url assets (dict_get filename_map (osName, arch)) with
  | none => .error (.unsupportedPlatform osName arch)
  | some url =>
      if url = "" then .error (.unsupportedPlatform osName arch)
      else .ok url

/-- Environment for `download_latest_bee`: the metadata request's outcome
(error message or decoded assets list), the runtime platform pair, and the
outcome of the asset body request. -/
structure ReleaseEnv where
  metadataResult : Except String (List Asset)
  osName : String
  arch : String
  assetFetch : Except String Unit

/-- Counts of the two network requests `download_latest_bee` can issue:
the metadata request (line 38) and the asset body request (line 84). -/
structure NetTrace where
  metadataCalls : Nat
  assetCalls : Nat
deriving DecidableEq

/-- Lines 44-102 of `download_latest_bee`, after the metadata response
has been decoded: evaluate the platform match against the fixed table
(lines 47-66), then fetch the asset body (lines 83-94, raising
`DownloadError` on request failure). -/
def locate_and_fetch (assets : List Asset) (env : ReleaseEnv) :
    Except BeeError String × NetTrace :=
  match locate_release_asset assets env.osName env.arch with
  | .error er => (.error er, ⟨1, 0⟩)
  | .ok url =>
      match env.assetFetch with
      | .error e => (.error (.downloadError e), ⟨1, 1⟩)
      | .ok _ => (.ok url, ⟨1, 1⟩)

/-- Lines 25-102, `download_latest_bee`: fetch the release metadata
(raising `ReleaseFetchError` on request failure, line 41), then locate
and fetch the platform asset.  The returned string is the located
download URL; the local path construction and file write are not
modelled. -/
def download_latest_bee (env : ReleaseEnv) : Except BeeError String × NetTrace :=
  match env.metadataResult with
  | .error e => (.error (.releaseFetchError e), ⟨1, 0⟩)
  | .ok assets => locate_and_fetch assets env

/-- The literal text `filename="` that the regex `filename="(.*?)"`
(line 154) must match before the capture group. -/
def filename_marker : List Char := "filename=\"".data

/-- Whether the second list begins with the first (character-wise). -/
def starts_with : List Char → List Char → Bool
  | [], _ => true
  | _ :: _, [] => false
  | p :: ps, c :: cs => if p = c then starts_with ps cs else false

/-- The lazy capture `(.*?)"`: the characters up to the first closing
double quote, failing if a newline (which `.` does not match) or the end
of input is reached first. -/
def scan_quoted : List Char → Option (List Char)
  | [] => none
  | c :: rest =>
      if c = '"' then some []
      else if c = '\n' then none
      else match scan_quoted rest with
           | some tok => some (c :: tok)
           | none => none

/-- Whether the regex `filename="(.*?)"` matches at the head of the list;
on success, the captured group. -/
def match_filename_at (s : List Char) : Option (List Char) :=
  if starts_with filename_marker s then scan_quoted (s.drop filename_marker.length)
  else none

/-- `re.search`: the capture of the leftmost match of
`filename="(.*?)"`, scanning start positions left to right. -/
def re_search_filename : List Char → Option (List Char)
  | [] => none
  | c :: rest =>
      match match_filename_at (c :: rest) with
      | some tok => some tok
      | none => re_search_filename rest

/-- Lines 150-156: `filename` after the header inspection.  Python's
`if content_disposition:` is false for an absent header and for the empty
string; when the regex finds no match `filename` stays `None`. -/
def extract_filename (content_disposition : Option String) : Option String :=
  match content_disposition with
  | none => none
  | some cd =>
      if cd = "" then none
      else match re_search_filename cd.data with
           | some tok => some (String.mk tok)
           | none => none

/-- Line 160: the fallback output name `downloaded_file_{swarmhash}.dat`. -/
def fallback_name (swarmhash : String) : String :=
  "downloaded_file_" ++ swarmhash ++ ".dat"

/-- Lines 150-160: the resolved output filename.  Python's
`if not filename:` takes the fallback both when `filename` is `None` and
when it is the empty string. -/
def resolve_filename (content_disposition : Option String) (swarmhash : String) :
    String :=
  match extract_filename content_disposition with
  | some f => if f = "" then fallback_name swarmhash else f
  | none => fallback_name swarmhash

/-- Line 131: `max_retries = 30`. -/
def max_retries : Nat := 30

/-- Line 136: `sock.settimeout(1)`, the per-attempt connect timeout. -/
def connect_timeout_seconds : Nat := 1

/-- Line 143: `time.sleep(1)` between consecutive attempts. -/
def retry_sleep_seconds : Nat := 1

/-- How a run of the readiness loop (lines 133-143) ends: `break` on a
successful connect, or the `RuntimeError` raise at line 142. -/
inductive ProbeOutcome where
  | connected
  | timedOut
deriving DecidableEq

/-- Observable summary of the readiness loop: how it ended, how many
connection attempts were made, and how many one-second sleeps ran. -/
structure ProbeResult where
  outcome : ProbeOutcome
  attempts : Nat
  sleeps : Nat
deriving DecidableEq

/-- Lines 133-143.  One iteration per connection attempt; `attemptIdx` is
the 1-based number of the attempt about to be made, so Python's
`retry_count` equals `attemptIdx - 1` on entry and `attemptIdx` after a
failure.  `remaining` is `max_retries - attemptIdx`: Python raises when
`retry_count >= max_retries` after a failed attempt, i.e. exactly when
`remaining = 0`; otherwise it sleeps one second and retries.  The sleeps
performed so far always number `attemptIdx - 1` (one after each earlier
failure). -/
def probe_loop (accepts : Nat → Bool) (attemptIdx remaining : Nat) : ProbeResult :=
  if accepts attemptIdx then ⟨.connected, attemptIdx, attemptIdx - 1⟩
  else
    match remaining with
    | 0 => ⟨.timedOut, attemptIdx, attemptIdx - 1⟩
    | r + 1 => probe_loop accepts (attemptIdx + 1) r

/-- The readiness loop as entered at line 133: first attempt is number 1,
with `max_retries - 1` further attempts allowed after it.  `accepts k`
tells whether the k-th `sock.connect` succeeds. -/
def readiness_probe (accepts : Nat → Bool) : ProbeResult :=
  probe_loop accepts 1 (max_retries - 1)

/-- The spawn failure of `subprocess.Popen` at line 16. -/
inductive SpawnError where
  | popenFailed
deriving DecidableEq

/-- Observable summary of one run of `start_bee_node`: how many `Popen`
calls were made, whether the supervision loop (lines 17-19) was entered,
and whether the child was terminated (lines 22-23). -/
structure SupervisorTrace where
  spawnAttempts : Nat
  loopEntered : Bool
  terminatedChild : Bool
deriving DecidableEq

/-- Lines 12-23, `start_bee_node`.  `Popen` is the first statement: if it
raises, the exception leaves the function before the supervision loop and
no second spawn is attempted.  Otherwise the loop polls the stop flag
until it observes it set (modelled by its effect: the loop exits only
once the flag is set) and then terminates the child and waits for it. -/
def start_bee_node (spawnOk : Bool) : Except SpawnError Unit × SupervisorTrace :=
  if spawnOk then (.ok (), ⟨1, true, true⟩)
  else (.error .popenFailed, ⟨1, false, false⟩)

/-- Python threading semantics: an exception raised inside a thread's
target function terminates only that thread (it is reported by the
threading excepthook); it is not re-raised in the thread that called
`start()`.  The caller observes nothing but the thread's side effects. -/
def thread_run_target (r : Except SpawnError Unit × SupervisorTrace) :
    SupervisorTrace := r.2

/-- Python threading semantics: `Thread.join(timeout)` has no return
value — it always returns `None`, never the thread's result and never a
process handle. -/
def thread_join_result (timeoutSeconds : Nat) : Option Unit := none

/-- The operations the program can perform on the shared
`threading.Event` stop flag.  `clear` is listed for completeness of the
Event API; `beeget.py` never calls it. -/
inductive FlagOp where
  | create
  | read
  | set
  | clear
deriving DecidableEq, BEq

/-- The flag value after running a list of operations from a given
value: `Event()` creates it unset, `is_set()` leaves it, `set()` makes it
true, `clear()` makes it false. -/
def flagAfter : List FlagOp → Bool → Bool
  | [], b => b
  | .create :: rest, _ => flagAfter rest false
  | .read :: rest, b => flagAfter rest b
  | .set :: rest, _ => flagAfter rest true
  | .clear :: rest, _ => flagAfter rest false

/-- The stop-flag operations of the supervisor thread: the loop at
lines 17-19 only calls `is_set()`; how many reads happen before it
observes the flag set depends on timing, hence the parameter. -/
def supervisor_flag_ops (reads : Nat) : List FlagOp :=
  List.replicate reads FlagOp.read

/-- Number of `stop_flag.set()` calls recorded in a list of flag
operations. -/
def count_set_calls (ops : List FlagOp) : Nat :=
  ops.countP (fun op => op == FlagOp.set)

/-- The retrieval response of the `/bzz` GET, line 146: only the
`Content-Disposition` header matters to the embedded logic (`None` when
the header is absent). -/
structure RetrievalResponse where
  contentDisposition : Option String
deriving DecidableEq

/-- Environment of one run of `query_bee_api`: outcomes of the release
download, the `os.path.exists` check, the child-process spawn inside the
supervisor thread, each socket connect attempt, and the `/bzz` GET
(`.error e` models `requests.exceptions.RequestException` with message
`e`, which `raise_for_status` also produces on non-success status). -/
structure RunEnv where
  release : ReleaseEnv
  binaryExists : Bool
  spawnOk : Bool
  accepts : Nat → Bool
  retrieval : Except String RetrievalResponse

/-- Observable trace of one run of `query_bee_api` (main thread):
printed lines, stop-flag operations in program order, probe attempt and
sleep counts, the timeout passed to `Thread.join` when the join runs
(`none` when the run never reaches line 179), and whether the
`bee_process.terminate()` branch at line 182 executed. -/
structure RunTrace where
  printed : List String
  flagOps : List FlagOp
  probeAttempts : Nat
  probeSleeps : Nat
  joinTimeoutSeconds : Option Nat
  forceTerminateCalled : Bool
deriving DecidableEq

/-- Lines 104-182, `query_bee_api`.  Sequence: download the binary
(line 115); check it exists (lines 117-118); create the stop flag
(line 120, recorded as `FlagOp.create`); start the supervisor thread
(lines 123-125 — a spawn failure stays inside that thread, see
`thread_run_target`); run the readiness loop (lines 131-143), raising
`NodeStartTimeout` on exhaustion; issue the `/bzz` GET (lines 145-147).
On a request failure the `except` clause at lines 171-172 raises, so the
`stop_flag.set()` at line 176 and the join at lines 179-182 never run.
On success the filename is resolved (lines 149-160), the file is written,
the success line printed (line 166), `stop_flag.set()` runs at line 169
and again at line 176, then `bee_thread.join(timeout=1)` (line 179)
returns `None`, so the `terminate()` branch (lines 180-182) is not
taken. -/
def query_bee_api (env : RunEnv) (swarmhash : String) :
    Except BeeError Unit × RunTrace :=
  match download_latest_bee env.release with
  | (.error e, _) => (.error e, ⟨[], [], 0, 0, none, false⟩)
  | (.ok _path, _) =>
      if env.binaryExists then
        let _sup : SupervisorTrace := thread_run_target (start_bee_node env.spawnOk)
        let probe := readiness_probe env.accepts
        match probe.outcome with
        | .timedOut =>
            (.error (.nodeStartTimeout max_retries),
             ⟨[], [.create], probe.attempts, probe.sleeps, none, false⟩)
        | .connected =>
            match env.retrieval with
            | .error e =>
                (.error (.retrievalError e),
                 ⟨[], [.create], probe.attempts, probe.sleeps, none, false⟩)
            | .ok resp =>
                let filename := resolve_filename resp.contentDisposition swarmhash
                let bee_process := thread_join_result 1
                (.ok (),
                 ⟨["Downloaded file: " ++ filename],
                  [.create, .set, .set], probe.attempts, probe.sleeps,
                  some 1, bee_process.isSome⟩)
      else
        (.error .binaryMissing, ⟨[], [], 0, 0, none, false⟩)

/-- Lines 184-192, the `__main__` block: run `query_bee_api`; a
`RuntimeError` is caught and printed as `Error: {message}`.  Python then
falls off the end of the script on both paths, so the exit status is 0
in either case.  Result: (printed lines of the whole process, exit
status). -/
def run_main (env : RunEnv) (swarmhash : String) : List String × Nat :=
  match query_bee_api env swarmhash with
  | (.ok _, tr) => (tr.printed, 0)
  | (.error e, tr) => (tr.printed ++ ["Error: " ++ errMessage e], 0)

/-- A release environment whose metadata yields one matching linux/amd64
asset and whose asset fetch succeeds. -/
def relOk : ReleaseEnv :=
  ⟨.ok [⟨"bee-linux-amd64", "https://example.invalid/bee-linux-amd64"⟩],
   "linux", "x86_64", .ok ()⟩

/-- A run in which everything up to the retrieval succeeds (the port
accepts on the first attempt) and the `/bzz` GET fails. -/
def envRetrievalFail : RunEnv :=
  ⟨relOk, true, true, fun _ => true, .error "404 Client Error"⟩

/-- A fully successful run: retrieval returns 200 with no
`Content-Disposition` header. -/
def envSuccess : RunEnv :=
  ⟨relOk, true, true, fun _ => true, .ok ⟨none⟩⟩

/-- A run in which the child process spawn fails inside the supervisor
thread and, consequently, the node's port never accepts a connection. -/
def envSpawnFail : RunEnv :=
  ⟨relOk, true, false, fun _ => false, .error "unreachable"⟩

/-! ### Helper lemmas: readiness probe -/

lemma probe_loop_all_fail (accepts : Nat → Bool)
    (hall : ∀ k, accepts k = false) :
    ∀ r a, probe_loop accepts a r = ⟨.timedOut, a + r, a + r - 1⟩ := by
  intro r
  induction r with
  | zero => intro a; simp [probe_loop, hall a]
  | succ n ih =>
      intro a
      rw [probe_loop, hall a]
      simp only [Bool.false_eq_true, if_false]
      rw [ih (a + 1)]
      have h1 : a + 1 + n = a + (n + 1) := by omega
      rw [h1]

lemma probe_loop_success (accepts : Nat → Bool) (N : Nat)
    (hN : accepts N = true)
    (hlt : ∀ k, k < N → 1 ≤ k → accepts k = false) :
    ∀ r a, 1 ≤ a → a ≤ N → N ≤ a + r →
      probe_loop accepts a r = ⟨.connected, N, N - 1⟩ := by
  intro r
  induction r with
  | zero =>
      intro a _ h1 h2
      have ha : a = N := by omega
      subst ha
      simp [probe_loop, hN]
  | succ n ih =>
      intro a ha0 h1 h2
      by_cases hA : a = N
      · subst hA; simp [probe_loop, hN]
      · have haN : a < N := lt_of_le_of_ne h1 hA
        have hf : accepts a = false := hlt a haN ha0
        rw [probe_loop, hf]
        simp only [Bool.false_eq_true, if_false]
        exact ih (a + 1) (by omega) (by omega) (by omega)

/-! ### Claim C2 -/

/-- C2: the readiness prober uses a 1-second connect timeout per attempt
and a 1-second sleep between consecutive attempts; for a target that never
accepts a connection it makes exactly 30 attempts (hence 29 intervening
sleeps) and ends in the `NodeStartTimeout` raise; for a target that first
accepts on attempt N with 1 ≤ N ≤ 30 it returns successfully after exactly
N attempts and N - 1 sleeps, with no sleep after the successful attempt. -/
theorem C2_readiness_prober (accepts : Nat → Bool) :
    connect_timeout_seconds = 1 ∧ retry_sleep_seconds = 1 ∧ max_retries = 30 ∧
    ((∀ k, accepts k = false) →
      readiness_probe accepts = ⟨.timedOut, 30, 29⟩) ∧
    (∀ N, 1 ≤ N → N ≤ 30 → (∀ k, k < N → 1 ≤ k → accepts k = false) →
      accepts N = true →
      readiness_probe accepts = ⟨.connected, N, N - 1⟩) := by
  refine ⟨rfl, rfl, rfl, ?_, ?_⟩
  · intro hall
    have h := probe_loop_all_fail accepts hall 29 1
    simpa [readiness_probe, max_retries] using h
  · intro N h1 h30 hlt hN
    have h := probe_loop_success accepts N hN hlt 29 1 le_rfl h1 (by omega)
    simpa [readiness_probe, max_retries] using h

/-- Witness for C2: a port that never accepts yields the timeout after 30
attempts and 29 sleeps; a port that first accepts on attempt 3 yields
success after 3 attempts and 2 sleeps. -/
theorem C2_witness :
    readiness_probe (fun _ => false) = ⟨.timedOut, 30, 29⟩ ∧
    readiness_probe (fun k => k == 3) = ⟨.connected, 3, 2⟩ :=
  ⟨(C2_readiness_prober (fun _ => false)).2.2.2.1 (fun _ => rfl),
   (C2_readiness_prober (fun k => k == 3)).2.2.2.2 3 (by decide) (by decide)
     (by decide) (by decide)⟩

/-! ### Helper lemmas: shape of a `query_bee_api` run -/

lemma query_bee_api_cases (env : RunEnv) (h : String) :
    (∃ e, query_bee_api env h = (.error e, ⟨[], [], 0, 0, none, false⟩)) ∨
    (∃ e, query_bee_api env h =
        (.error e, ⟨[], [.create], (readiness_probe env.accepts).attempts,
          (readiness_probe env.accepts).sleeps, none, false⟩)) ∨
    (∃ resp, env.retrieval = .ok resp ∧
        query_bee_api env h =
          (.ok (), ⟨["Downloaded file: " ++ resolve_filename resp.contentDisposition h],
            [.create, .set, .set], (readiness_probe env.accepts).attempts,
            (readiness_probe env.accepts).sleeps, some 1, false⟩)) := by
  rcases hdl : download_latest_bee env.release with ⟨res, nt⟩
  cases res with
  | error e =>
      exact Or.inl ⟨e, by unfold query_bee_api; rw [hdl]⟩
  | ok path =>
      by_cases hb : env.binaryExists
      · cases hp : (readiness_probe env.accepts).outcome with
        | timedOut =>
            refine Or.inr (Or.inl ⟨.nodeStartTimeout max_retries, ?_⟩)
            unfold query_bee_api
            rw [hdl]
            simp [hb, hp]
        | connected =>
            cases hr : env.retrieval with
            | error e =>
                refine Or.inr (Or.inl ⟨.retrievalError e, ?_⟩)
                unfold query_bee_api
                rw [hdl]
                simp [hb, hp, hr]
            | ok resp =>
                refine Or.inr (Or.inr ⟨resp, rfl, ?_⟩)
                unfold query_bee_api
                rw [hdl]
                simp [hb, hp, hr, thread_join_result]
      · refine Or.inl ⟨.binaryMissing, ?_⟩
        unfold query_bee_api
        rw [hdl]
        simp [hb]

lemma query_bee_api_error_printed (env : RunEnv) (h : String) (e : BeeError)
    (tr : RunTrace) (hq : query_bee_api env h = (.error e, tr)) :
    tr.printed = [] := by
  rcases query_bee_api_cases env h with ⟨e', hq'⟩ | ⟨e', hq'⟩ | ⟨resp, _, hq'⟩ <;>
    rw [hq'] at hq
  · injection hq with h1 h2; rw [← h2]
  · injection hq with h1 h2; rw [← h2]
  · injection hq with h1 h2; exact Except.noConfusion h1

/-! ### Claim C7 -/

/-- C7: the CLI exits with status 0 on every path; when a component
failure propagates it prints the single line `Error: {message}`, and on
success it prints the single line `Downloaded file: {filename}`. -/
theorem C7_cli (env : RunEnv) (h : String) :
    (run_main env h).2 = 0 ∧
    (∀ e tr, query_bee_api env h = (.error e, tr) →
      (run_main env h).1 = ["Error: " ++ errMessage e]) ∧
    (∀ tr, query_bee_api env h = (.ok (), tr) →
      ∃ fn, (run_main env h).1 = ["Downloaded file: " ++ fn] ∧
            tr.printed = ["Downloaded file: " ++ fn]) := by
  refine ⟨?_, ?_, ?_⟩
  · unfold run_main
    rcases hq : query_bee_api env h with ⟨res, tr⟩
    cases res <;> simp
  · intro e tr hq
    have hpr : tr.printed = [] := query_bee_api_error_printed env h e tr hq
    unfold run_main
    rw [hq]
    simp [hpr]
  · intro tr hq
    rcases query_bee_api_cases env h with ⟨e', hq'⟩ | ⟨e', hq'⟩ | ⟨resp, _, hq'⟩ <;>
      rw [hq'] at hq
    · simp at hq
    · simp at hq
    · refine ⟨resolve_filename resp.contentDisposition h, ?_, ?_⟩
      · unfold run_main
        rw [hq']
      · have : tr = ⟨["Downloaded file: " ++ resolve_filename resp.contentDisposition h],
          [.create, .set, .set], (readiness_probe env.accepts).attempts,
          (readiness_probe env.accepts).sleeps, some 1, false⟩ := by
          have := congrArg Prod.snd hq
          simpa using this.symm
        rw [this]

/-- Witness for C7: on the concrete failing run the CLI prints exactly
the error line and exits with status 0; the message is the formatted
retrieval error. -/
theorem C7_witness :
    (run_main envRetrievalFail "abc123").2 = 0 ∧
    (run_main envRetrievalFail "abc123").1
      = ["Error: " ++ errMessage (.retrievalError "404 Client Error")] :=
  ⟨(C7_cli envRetrievalFail "abc123").1,
   (C7_cli envRetrievalFail "abc123").2.1 (.retrievalError "404 Client Error")
     ⟨[], [.create], 1, 0, none, false⟩ rfl⟩

/-! ### Helper lemmas: stop-flag monotonicity -/

lemma flagAfter_append (l1 l2 : List FlagOp) (init : Bool) :
    flagAfter (l1 ++ l2) init = flagAfter l2 (flagAfter l1 init) := by
  induction l1 generalizing init with
  | nil => rfl
  | cons op rest ih => cases op <;> simp [flagAfter, ih]

lemma flagAfter_true_of_reads_sets (l : List FlagOp)
    (h : ∀ op ∈ l, op = .read ∨ op = .set) : flagAfter l true = true := by
  induction l with
  | nil => rfl
  | cons op rest ih =>
      have hop := h op (List.mem_cons_self op rest)
      have hrest : ∀ op ∈ rest, op = .read ∨ op = .set :=
        fun op hm => h op (List.mem_cons_of_mem _ hm)
      rcases hop with h1 | h1 <;> subst h1 <;>
        simpa [flagAfter] using ih hrest

/-! ### Claim C8 -/

/-- C8: the Stop Signal starts unset; in every run the main thread's
flag operations are one creation followed only by `set` calls (and on
some paths no operation at all, the flag not yet existing); the
supervisor thread only reads the flag; and over any sequence of
operations drawn from reads and sets, once the flag is observed set it
remains set at every later observation. -/
theorem C8_stop_signal_monotone :
    (∀ b, flagAfter [.create] b = false) ∧
    (∀ env h, (query_bee_api env h).2.flagOps = [] ∨
              (query_bee_api env h).2.flagOps = [.create] ∨
              (query_bee_api env h).2.flagOps = [.create, .set, .set]) ∧
    (∀ n op, op ∈ supervisor_flag_ops n → op = .read) ∧
    (∀ (l1 l2 : List FlagOp) (init : Bool),
      (∀ op ∈ l2, op = .read ∨ op = .set) →
      flagAfter l1 init = true → flagAfter (l1 ++ l2) init = true) := by
  refine ⟨fun b => rfl, ?_, ?_, ?_⟩
  · intro env h
    rcases query_bee_api_cases env h with ⟨e, hq⟩ | ⟨e, hq⟩ | ⟨resp, _, hq⟩ <;>
      rw [hq] <;> simp
  · intro n op hm
    exact List.eq_of_mem_replicate hm
  · intro l1 l2 init h2 h1
    rw [flagAfter_append, h1]
    exact flagAfter_true_of_reads_sets l2 h2

/-- Witness for C8: the flag is unset right after creation, and after a
set it stays set across a later read. -/
theorem C8_witness :
    flagAfter [FlagOp.create] true = false ∧
    flagAfter ([FlagOp.create, FlagOp.set] ++ [FlagOp.read]) false = true :=
  ⟨C8_stop_signal_monotone.1 true,
   C8_stop_signal_monotone.2.2.2 [FlagOp.create, FlagOp.set] [FlagOp.read] false
     (fun op hm => Or.inl (List.mem_singleton.mp hm)) (by decide)⟩

/-! ### Claim C3 -/

/-- C3 (code bug): on every run the orchestrator's join is bounded —
when a run reaches the shutdown sequence it calls
`bee_thread.join(timeout=1)` — but `Thread.join` returns `None`, so the
`bee_process.terminate()` branch is unreachable and the orchestrator
never force-terminates the node process, contrary to the claim and to
the comment in the source. -/
theorem C3_join_never_terminates (env : RunEnv) (h : String) :
    thread_join_result 1 = none ∧
    (query_bee_api env h).2.forceTerminateCalled = false ∧
    ((query_bee_api env h).1 = .ok () →
      (query_bee_api env h).2.joinTimeoutSeconds = some 1) := by
  refine ⟨rfl, ?_, ?_⟩ <;>
    rcases query_bee_api_cases env h with ⟨e, hq⟩ | ⟨e, hq⟩ | ⟨resp, _, hq⟩ <;>
      rw [hq] <;> simp

/-- Witness for C3: the fully successful concrete run joins with the
1-second bound and never executes the force-terminate branch. -/
theorem C3_witness :
    (query_bee_api envSuccess "abc123").2.joinTimeoutSeconds = some 1 ∧
    (query_bee_api envSuccess "abc123").2.forceTerminateCalled = false :=
  ⟨(C3_join_never_terminates envSuccess "abc123").2.2 rfl,
   (C3_join_never_terminates envSuccess "abc123").2.1⟩

/-! ### Claim C1 -/

/-- C1 (code bug): on the concrete run whose `/bzz` retrieval fails,
`query_bee_api` raises the retrieval error without `stop_flag.set()`
ever being called (the set after the `try` block is skipped by the
re-raise), and on the otherwise-identical successful run `set()` is
called twice, not once. -/
theorem C1_stop_signal_on_failure :
    (query_bee_api envRetrievalFail "abc123").1
      = .error (.retrievalError "404 Client Error") ∧
    count_set_calls (query_bee_api envRetrievalFail "abc123").2.flagOps = 0 ∧
    count_set_calls (query_bee_api envSuccess "abc123").2.flagOps = 2 :=
  ⟨rfl, rfl, rfl⟩

/-! ### Claim C4 -/

/-- C4 counterexample: with the spawn failing and the port consequently
never accepting, the spawn error is raised inside `start_bee_node` (in
the supervisor thread), the thread machinery discards it, and
`query_bee_api` fails with `NodeStartTimeout` — the spawn error does not
propagate to `query_bee_api`. -/
theorem C4_counterexample :
    (start_bee_node false).1 = .error .popenFailed ∧
    thread_run_target (start_bee_node false) = ⟨1, false, false⟩ ∧
    (query_bee_api envSpawnFail "abc123").1 = .error (.nodeStartTimeout 30) :=
  ⟨rfl, rfl, rfl⟩

/-- C4 (amended): a spawn failure terminates `start_bee_node` before the
supervision loop, with exactly one spawn attempt and no retry; but the
failure stays inside the supervisor thread — `query_bee_api`'s result and
trace are identical whatever the spawn outcome, so the error never
propagates to it. -/
theorem C4_spawn_error_isolated :
    ((start_bee_node false).1 = .error .popenFailed ∧
     (start_bee_node false).2.spawnAttempts = 1 ∧
     (start_bee_node false).2.loopEntered = false) ∧
    (∀ rel bex acc retr h b b',
      query_bee_api ⟨rel, bex, b, acc, retr⟩ h
        = query_bee_api ⟨rel, bex, b', acc, retr⟩ h) := by
  refine ⟨⟨rfl, rfl, rfl⟩, ?_⟩
  intro rel bex acc retr h b b'
  rfl

/-- Witness for C4: the concrete spawn-failure run is indistinguishable
from the same run with a successful spawn, and the spawn error is
confined to `start_bee_node`. -/
theorem C4_witness :
    query_bee_api envSpawnFail "x"
      = query_bee_api ⟨relOk, true, true, fun _ => false, .error "unreachable"⟩ "x" ∧
    (start_bee_node false).1 = .error .popenFailed :=
  ⟨C4_spawn_error_isolated.2 relOk true (fun _ => false) (.error "unreachable")
     "x" false true,
   C4_spawn_error_isolated.1.1⟩

/-! ### Helper lemmas: release locator -/

lemma dict_get_none (k : String × String) :
    ∀ m : List ((String × String) × String),
      (∀ v, (k, v) ∉ m) → dict_get m k = none := by
  intro m
  induction m with
  | nil => intro _; rfl
  | cons p rest ih =>
      intro habs
      rcases p with ⟨k2, v⟩
      unfold dict_get
      by_cases hk : k2 = k
      · subst hk
        exact absurd (List.mem_cons_self _ _) (habs v)
      · rw [if_neg hk]
        exact ih (fun v' hm => habs v' (List.mem_cons_of_mem _ hm))

lemma find_download_url_none_target :
    ∀ assets : List Asset, find_download_url assets none = none := by
  intro assets
  induction assets with
  | nil => rfl
  | cons a rest ih => simpa [find_download_url] using ih

lemma find_download_url_no_match (f : String) :
    ∀ assets : List Asset, (∀ a ∈ assets, a.name ≠ f) →
      find_download_url assets (some f) = none := by
  intro assets
  induction assets with
  | nil => intro _; rfl
  | cons a rest ih =>
      intro hnm
      have ha : a.name ≠ f := hnm a (List.mem_cons_self _ _)
      unfold find_download_url
      rw [if_neg (by simpa using ha)]
      exact ih (fun b hm => hnm b (List.mem_cons_of_mem _ hm))

lemma find_download_url_first (f : String) (a : Asset) (hname : a.name = f) :
    ∀ pre post, (∀ b ∈ pre, b.name ≠ f) →
      find_download_url (pre ++ a :: post) (some f)
        = some a.browser_download_url := by
  intro pre
  induction pre with
  | nil =>
      intro post _
      simp [find_download_url, hname]
  | cons b rest ih =>
      intro post hpre
      have hb : b.name ≠ f := hpre b (List.mem_cons_self _ _)
      have htail := ih post (fun c hc => hpre c (List.mem_cons_of_mem _ hc))
      simpa [find_download_url, hb] using htail

/-! ### Claim C6 -/

/-- C6: the platform table is exactly the fixed five-entry map; the
metadata request is issued on every run of `download_latest_bee`, before
the platform match is evaluated (a metadata failure yields
`ReleaseFetchError` whatever the platform, with no asset request); and
whenever the metadata was fetched but the (os, arch) pair is absent from
the table or no asset carries the mapped name, the locator fails with
`UnsupportedPlatform` without issuing the asset request. -/
theorem C6_release_locator :
    filename_map = [ (("linux", "x86_64"), "bee-linux-amd64"),
                     (("linux", "arm64"), "bee-linux-arm64"),
                     (("darwin", "x86_64"), "bee-darwin-amd64"),
                     (("darwin", "arm64"), "bee-darwin-arm64"),
                     (("windows", "x86_64"), "bee-windows-amd64.exe") ] ∧
    (∀ env, (download_latest_bee env).2.metadataCalls = 1) ∧
    (∀ env e, env.metadataResult = .error e →
      download_latest_bee env = (.error (.releaseFetchError e), ⟨1, 0⟩)) ∧
    (∀ env assets, env.metadataResult = .ok assets →
      ((∀ f, ((env.osName, env.arch), f) ∉ filename_map) ∨
       (∃ f, dict_get filename_map (env.osName, env.arch) = some f ∧
             ∀ a ∈ assets, a.name ≠ f)) →
      download_latest_bee env
        = (.error (.unsupportedPlatform env.osName env.arch), ⟨1, 0⟩)) := by
  refine ⟨rfl, ?_, ?_, ?_⟩
  · intro env
    unfold download_latest_bee
    rcases hm : env.metadataResult with e | assets
    · rfl
    · show (locate_and_fetch assets env).2.metadataCalls = 1
      unfold locate_and_fetch
      rcases hloc : locate_release_asset assets env.osName env.arch with er | url
      · rfl
      · rcases hf : env.assetFetch with e | u <;> rfl
  · intro env e he
    unfold download_latest_bee
    rw [he]
  · intro env assets he hcond
    have hloc : locate_release_asset assets env.osName env.arch
        = .error (.unsupportedPlatform env.osName env.arch) := by
      unfold locate_release_asset
      rcases hcond with hnone | ⟨f, hdf, hnm⟩
      · rw [dict_get_none _ filename_map (fun v => hnone v),
          find_download_url_none_target]
      · rw [hdf, find_download_url_no_match f assets hnm]
    unfold download_latest_bee
    rw [he]
    show locate_and_fetch assets env = _
    unfold locate_and_fetch
    rw [hloc]

/-- Witness for C6: a metadata response with one asset, on an
unsupported (linux, riscv64) platform, fails with `UnsupportedPlatform`
after one metadata request and zero asset requests. -/
theorem C6_witness :
    download_latest_bee
        ⟨.ok [⟨"bee-linux-amd64", "https://example.invalid/x"⟩],
         "linux", "riscv64", .ok ()⟩
      = (.error (.unsupportedPlatform "linux" "riscv64"), ⟨1, 0⟩) :=
  C6_release_locator.2.2.2 _ _ rfl
    (Or.inl (by
      intro f hf
      simp only [filename_map, List.mem_cons, List.not_mem_nil, or_false,
        Prod.mk.injEq] at hf
      rcases hf with ⟨⟨h1, h2⟩, h3⟩ | ⟨⟨h1, h2⟩, h3⟩ | ⟨⟨h1, h2⟩, h3⟩ |
        ⟨⟨h1, h2⟩, h3⟩ | ⟨⟨h1, h2⟩, h3⟩ <;> exact absurd h2 (by decide)))

/-! ### Claim C10 -/

/-- C10 counterexample: two assets share the mapped name
`bee-linux-amd64` and the first has an empty `browser_download_url`; the
locator neither returns the first URL (the empty string) nor the second
— Python's `if not download_url:` treats the empty string as no match,
so it raises the unsupported-platform error. -/
theorem C10_counterexample :
    locate_release_asset
        [⟨"bee-linux-amd64", ""⟩,
         ⟨"bee-linux-amd64", "https://example.invalid/bee"⟩]
        "linux" "x86_64"
      = .error (.unsupportedPlatform "linux" "x86_64") ∧
    locate_release_asset
        [⟨"bee-linux-amd64", ""⟩,
         ⟨"bee-linux-amd64", "https://example.invalid/bee"⟩]
        "linux" "x86_64"
      ≠ .ok "" := by
  refine ⟨rfl, ?_⟩
  intro hcontra
  rw [show locate_release_asset
        [⟨"bee-linux-amd64", ""⟩,
         ⟨"bee-linux-amd64", "https://example.invalid/bee"⟩]
        "linux" "x86_64"
      = .error (.unsupportedPlatform "linux" "x86_64") from rfl] at hcontra
  exact Except.noConfusion hcontra

/-- C10 (amended): when several assets carry the mapped platform
filename, the scan loop deterministically selects the first such asset in
list order, and the locator returns its `browser_download_url` provided
that URL is nonempty; when the first matching asset's URL is the empty
string, Python truthiness makes the locator fail with
`UnsupportedPlatform` instead. -/
theorem C10_first_match (pre post : List Asset) (a : Asset) (f os arch : String)
    (hmap : dict_get filename_map (os, arch) = some f)
    (hname : a.name = f)
    (hpre : ∀ b ∈ pre, b.name ≠ f) :
    find_download_url (pre ++ a :: post) (some f) = some a.browser_download_url ∧
    (a.browser_download_url ≠ "" →
      locate_release_asset (pre ++ a :: post) os arch
        = .ok a.browser_download_url) ∧
    (a.browser_download_url = "" →
      locate_release_asset (pre ++ a :: post) os arch
        = .error (.unsupportedPlatform os arch)) := by
  have hfind := find_download_url_first f a hname pre post hpre
  refine ⟨hfind, ?_, ?_⟩
  · intro hne
    unfold locate_release_asset
    rw [hmap, hfind]
    simp [hne]
  · intro heq
    unfold locate_release_asset
    rw [hmap, hfind]
    simp [heq]

/-- Witness for C10: with two assets named `bee-linux-amd64` and a
nonempty first URL, the locator returns the first asset's URL. -/
theorem C10_witness :
    locate_release_asset
        [⟨"bee-linux-amd64", "https://example.invalid/a"⟩,
         ⟨"bee-linux-amd64", "https://example.invalid/b"⟩]
        "linux" "x86_64"
      = .ok "https://example.invalid/a" :=
  (C10_first_match [] [⟨"bee-linux-amd64", "https://example.invalid/b"⟩]
      ⟨"bee-linux-amd64", "https://example.invalid/a"⟩
      "bee-linux-amd64" "linux" "x86_64" rfl rfl
      (fun b hb => absurd hb (List.not_mem_nil b))).2.1 (by decide)

/-! ### Helper lemmas: the filename regex -/

lemma starts_with_decomp : ∀ (p l : List Char), starts_with p l = true →
    ∃ r, l = p ++ r := by
  intro p
  induction p with
  | nil => intro l _; exact ⟨l, rfl⟩
  | cons x ps ih =>
      intro l h
      cases l with
      | nil => simp [starts_with] at h
      | cons c cs =>
          unfold starts_with at h
          by_cases hx : x = c
          · subst hx
            rw [if_pos rfl] at h
            obtain ⟨r, hr⟩ := ih cs h
            exact ⟨r, by simp [hr]⟩
          · rw [if_neg hx] at h
            exact absurd h (by simp)

lemma starts_with_append : ∀ (p r : List Char), starts_with p (p ++ r) = true := by
  intro p r
  induction p with
  | nil => rfl
  | cons x ps ih => simp [starts_with, ih]

lemma scan_quoted_sound : ∀ (l tok : List Char),
    scan_quoted l = some tok →
    ∃ rest, l = tok ++ '"' :: rest ∧ '"' ∉ tok ∧ '\n' ∉ tok := by
  intro l
  induction l with
  | nil => intro tok h; exact Option.noConfusion h
  | cons c cs ih =>
      intro tok h
      unfold scan_quoted at h
      by_cases hq : c = '"'
      · rw [if_pos hq] at h
        have h2 : ([] : List Char) = tok := by injection h
        subst h2
        exact ⟨cs, by simp [hq], by simp, by simp⟩
      · rw [if_neg hq] at h
        by_cases hn : c = '\n'
        · rw [if_pos hn] at h; exact Option.noConfusion h
        · rw [if_neg hn] at h
          rcases hsc : scan_quoted cs with _ | tok'
          · rw [hsc] at h; exact Option.noConfusion h
          · rw [hsc] at h
            have h2 : c :: tok' = tok := by injection h
            obtain ⟨rest, hdec, hq', hn'⟩ := ih tok' hsc
            subst h2
            refine ⟨rest, by simp [hdec], ?_, ?_⟩
            · intro hmem
              rcases List.mem_cons.mp hmem with h3 | h3
              · exact hq h3.symm
              · exact hq' h3
            · intro hmem
              rcases List.mem_cons.mp hmem with h3 | h3
              · exact hn h3.symm
              · exact hn' h3

lemma scan_quoted_complete : ∀ (tok rest : List Char), '"' ∉ tok → '\n' ∉ tok →
    scan_quoted (tok ++ '"' :: rest) = some tok := by
  intro tok
  induction tok with
  | nil => intro rest _ _; rfl
  | cons c cs ih =>
      intro rest hq hn
      have hc1 : c ≠ '"' := fun hcon => hq (by subst hcon; exact List.mem_cons_self _ _)
      have hc2 : c ≠ '\n' := fun hcon => hn (by subst hcon; exact List.mem_cons_self _ _)
      have htail := ih rest (fun hm => hq (List.mem_cons_of_mem _ hm))
        (fun hm => hn (List.mem_cons_of_mem _ hm))
      simp only [List.cons_append]
      unfold scan_quoted
      rw [if_neg hc1, if_neg hc2, htail]

lemma match_filename_at_sound (s tok : List Char)
    (h : match_filename_at s = some tok) :
    ∃ rest, s = filename_marker ++ tok ++ '"' :: rest ∧ '"' ∉ tok ∧ '\n' ∉ tok := by
  unfold match_filename_at at h
  by_cases hs : starts_with filename_marker s = true
  · rw [if_pos hs] at h
    obtain ⟨r, hr⟩ := starts_with_decomp filename_marker s hs
    have hdrop : s.drop filename_marker.length = r := by
      rw [hr]; exact List.drop_left _ _
    rw [hdrop] at h
    obtain ⟨rest, hrd, hq, hn⟩ := scan_quoted_sound r tok h
    exact ⟨rest, by rw [hr, hrd, List.append_assoc], hq, hn⟩
  · rw [if_neg hs] at h
    exact Option.noConfusion h

lemma match_filename_at_complete (tok rest : List Char)
    (hq : '"' ∉ tok) (hn : '\n' ∉ tok) :
    match_filename_at (filename_marker ++ tok ++ '"' :: rest) = some tok := by
  rw [List.append_assoc]
  unfold match_filename_at
  rw [if_pos (starts_with_append filename_marker (tok ++ '"' :: rest)),
    List.drop_left, scan_quoted_complete tok rest hq hn]

lemma re_search_filename_cons_none (c : Char) (cs : List Char)
    (h : re_search_filename (c :: cs) = none) :
    re_search_filename cs = none := by
  unfold re_search_filename at h
  rcases hm : match_filename_at (c :: cs) with _ | tok'
  · rw [hm] at h; exact h
  · rw [hm] at h; exact Option.noConfusion h

lemma re_search_filename_sound : ∀ (l tok : List Char),
    re_search_filename l = some tok →
    ∃ pre rest, l = pre ++ filename_marker ++ tok ++ '"' :: rest ∧
      '"' ∉ tok ∧ '\n' ∉ tok := by
  intro l
  induction l with
  | nil => intro tok h; exact Option.noConfusion h
  | cons c cs ih =>
      intro tok h
      unfold re_search_filename at h
      rcases hm : match_filename_at (c :: cs) with _ | tok'
      · rw [hm] at h
        have h2 : re_search_filename cs = some tok := h
        obtain ⟨pre, rest, hdec, hq, hn⟩ := ih tok h2
        exact ⟨c :: pre, rest, by simp [hdec, List.append_assoc], hq, hn⟩
      · rw [hm] at h
        have h2 : some tok' = some tok := h
        have h3 : tok' = tok := by injection h2
        subst h3
        obtain ⟨rest, hdec, hq, hn⟩ := match_filename_at_sound (c :: cs) tok' hm
        exact ⟨[], rest, by rw [List.nil_append, hdec], hq, hn⟩

lemma re_search_filename_none_no_match : ∀ l : List Char,
    re_search_filename l = none →
    ∀ l1 l2, l = l1 ++ l2 → match_filename_at l2 = none := by
  intro l
  induction l with
  | nil =>
      intro _ l1 l2 hdec
      have h2 : l2 = [] := (List.append_eq_nil.mp hdec.symm).2
      subst h2
      decide
  | cons c cs ih =>
      intro h l1 l2 hdec
      cases l1 with
      | nil =>
          rw [List.nil_append] at hdec
          subst hdec
          unfold re_search_filename at h
          rcases hm : match_filename_at (c :: cs) with _ | tok'
          · rfl
          · rw [hm] at h; exact Option.noConfusion h
      | cons x xs =>
          rw [List.cons_append] at hdec
          injection hdec with h1 h2
          exact ih (re_search_filename_cons_none c cs h) xs l2 h2

lemma extract_filename_eq (cd : String) (hne : cd ≠ "") :
    extract_filename (some cd)
      = (re_search_filename cd.data).map (fun tok => String.mk tok) := by
  show (if cd = "" then none
        else match re_search_filename cd.data with
             | some tok => some (String.mk tok)
             | none => none)
      = (re_search_filename cd.data).map (fun tok => String.mk tok)
  rw [if_neg hne]
  cases re_search_filename cd.data <;> rfl

lemma resolve_filename_of_search (cd : String) (tok : List Char) (h : String)
    (hs : re_search_filename cd.data = some tok) :
    resolve_filename (some cd) h
      = if String.mk tok = "" then fallback_name h else String.mk tok := by
  have hne : cd ≠ "" := by
    intro hcon
    subst hcon
    exact Option.noConfusion ((rfl : re_search_filename ("" : String).data = none).symm.trans hs)
  unfold resolve_filename
  rw [extract_filename_eq cd hne, hs]
  rfl

/-! ### Claim C5 -/

/-- C5 counterexample: the header `attachment; filename=""` carries a
quoted filename token of the form `filename="..."` whose token is the
empty string; the code does not name the output file by that token, but
falls back to `downloaded_file_{swarmhash}.dat` because Python's
`if not filename:` treats the empty extracted string as absent. -/
theorem C5_counterexample :
    re_search_filename ("attachment; filename=\"\"").data = some [] ∧
    resolve_filename (some "attachment; filename=\"\"") "abc123"
      = "downloaded_file_abc123.dat" ∧
    resolve_filename (some "attachment; filename=\"\"") "abc123" ≠ "" := by
  refine ⟨by decide, by decide, by decide⟩

/-- C5 (amended): when the `Content-Disposition` header contains a
quoted token of the form `filename="..."` and the (first) regex-extracted
token is nonempty, the output file is named by that token; when the
header is absent — or the extracted token is empty — the output file is
named `downloaded_file_{swarmhash}.dat`. -/
theorem C5_filename_resolution :
    (∀ cd tok h, re_search_filename cd.data = some tok → tok ≠ [] →
      ((∃ pre rest, cd.data = pre ++ filename_marker ++ tok ++ '"' :: rest) ∧
       resolve_filename (some cd) h = String.mk tok)) ∧
    (∀ h, resolve_filename none h = "downloaded_file_" ++ h ++ ".dat") ∧
    (∀ cd tok h, re_search_filename cd.data = some tok → tok = [] →
      resolve_filename (some cd) h = "downloaded_file_" ++ h ++ ".dat") := by
  refine ⟨?_, fun h => rfl, ?_⟩
  · intro cd tok h hs htok
    constructor
    · obtain ⟨pre, rest, hdec, _, _⟩ := re_search_filename_sound cd.data tok hs
      exact ⟨pre, rest, hdec⟩
    · rw [resolve_filename_of_search cd tok h hs]
      have hne2 : String.mk tok ≠ "" := by
        intro hcon
        apply htok
        have h3 : (String.mk tok).data = ("" : String).data := by rw [hcon]
        exact h3
      rw [if_neg hne2]
  · intro cd tok h hs htok
    subst htok
    rw [resolve_filename_of_search cd [] h hs, if_pos rfl]
    rfl

/-- Witness for C5: the claim's own example header yields `report.dat`,
and an absent header yields the constructed fallback name. -/
theorem C5_witness :
    resolve_filename (some "attachment; filename=\"report.dat\"") "abc123"
      = "report.dat" ∧
    resolve_filename none "abc123" = "downloaded_file_abc123.dat" := by
  constructor
  · exact (C5_filename_resolution.1 "attachment; filename=\"report.dat\""
      ("report.dat").data "abc123" (by decide) (by decide)).2
  · have h2 := C5_filename_resolution.2.1 "abc123"
    rw [h2]
    decide

/-! ### Claim C9 -/

/-- C9: when the `Content-Disposition` header contains no quoted token of
the form `filename="..."` (the regex finds no match — in particular there
is no decomposition of the header around the literal `filename="` with a
quote-free, newline-free token closed by a quote), the output filename is
exactly what it would be with the header absent. -/
theorem C9_no_quoted_token_fallback (cd h : String)
    (hm : re_search_filename cd.data = none) :
    (¬ ∃ pre tok rest, ('"' ∉ tok ∧ '\n' ∉ tok) ∧
        cd.data = pre ++ filename_marker ++ tok ++ '"' :: rest) ∧
    resolve_filename (some cd) h = resolve_filename none h := by
  constructor
  · rintro ⟨pre, tok, rest, ⟨hq, hn⟩, hdec⟩
    have hno := re_search_filename_none_no_match cd.data hm pre
      (filename_marker ++ tok ++ '"' :: rest)
      (by rw [hdec]; simp [List.append_assoc])
    rw [match_filename_at_complete tok rest hq hn] at hno
    exact Option.noConfusion hno
  · by_cases hne : cd = ""
    · subst hne; rfl
    · unfold resolve_filename
      rw [extract_filename_eq cd hne, hm]
      rfl

/-- Witness for C9: a `Content-Disposition` header with an unquoted
filename parameter falls back exactly as if the header were absent. -/
theorem C9_witness :
    resolve_filename (some "attachment; filename=report.dat") "abc123"
      = resolve_filename none "abc123" :=
  (C9_no_quoted_token_fallback "attachment; filename=report.dat" "abc123"
    (by decide)).2

end Beeget
